import Mathlib

/-!
Verification development for the contract-first API layer (ts-rest early
snapshot, repository tscont).

The development shallowly embeds, in order:
* a model of the external validation library (zod object schemas and the
  behavior of safeParse and merge on them);
* the schema validator checkZodSchema and isZodObject from
  src/libs/ts-rest/core/src/lib/zod-utils.ts;
* the schema merger zodMerge (its body is not under src; its semantics is
  pinned by the in-src tests and by the in-src type UniversalMerge);
* the contract builder recursivelyApplyOptions from the in-src dsl file, and
  a spec-modelled full builder covering the pathPrefix and strictStatusCodes
  router options whose implementation is absent from src (only its tests are);
* the request matching and dispatch pipeline of the Next adapter
  (isRouteCorrect, getRouteImplementation, createSingleRouteHandler,
  handlerFactory).
-/

set_option autoImplicit false

/-- Primitive runtime values (JSON scalars) appearing in request data. -/
inductive Prim where
  | pStr (s : String)
  | pNum (n : Int)
  | pBool (b : Bool)
  | pNull
  deriving DecidableEq, Repr

/-- Runtime values handed to the schema validator: a scalar or a flat
key-value object of scalars, which covers the shapes exercised by the
repository (headers, query mappings, path params, simple bodies). -/
inductive Value where
  | prim (p : Prim)
  | obj (fields : List (String × Prim))
  deriving DecidableEq, Repr

/-- Field validators of a modelled zod object schema. -/
inductive FieldType where
  | tStr
  | tNum
  | tBool
  | tAny
  deriving DecidableEq, Repr

/-- One structured validation issue: a field path and a machine readable
code, as in the error shape produced by the validation library. -/
structure ZodIssue where
  path : List String
  code : String
  deriving DecidableEq, Repr

/-- Model of a zod object schema: declared fields (all required) plus the
unknown-keys policy. With strict set, unknown keys are rejected; otherwise
they are stripped, which are the two policies the repository uses. -/
structure ZodObjectDef where
  shape : List (String × FieldType)
  strict : Bool
  deriving DecidableEq, Repr

/-- First value bound to a key in an association list, as JS property lookup
on the objects the embedding models. -/
def lookupKey {κ α : Type} [DecidableEq κ] (xs : List (κ × α)) (k : κ) : Option α :=
  match xs with
  | [] => none
  | (k1, v) :: rest => if k1 = k then some v else lookupKey rest k

/-- JS object spread of two association lists: keys of a in order with
values overridden by b on collision, then keys of b not in a. This is the
meaning of both the TS expression with a spread of data then result data in
checkZodSchema, and of the mergeShapes utility of the validation library. -/
def spreadPairs {κ α : Type} [DecidableEq κ] (a b : List (κ × α)) : List (κ × α) :=
  a.map (fun p => (p.1, (lookupKey b p.1).getD p.2)) ++
    b.filter (fun p => (lookupKey a p.1).isNone)

/-- Does a primitive value satisfy a field validator. -/
def checkPrim : FieldType → Prim → Bool
  | .tStr, .pStr _ => true
  | .tNum, .pNum _ => true
  | .tBool, .pBool _ => true
  | .tAny, _ => true
  | _, _ => false

/-- Result shape of the schema validator: exactly one of the two branches,
as the Validation Result union of the data model. -/
inductive CheckResult where
  | success (data : Value)
  | failure (error : List ZodIssue)
  deriving DecidableEq, Repr

/-- True exactly on the failure branch of a validation result. -/
def isFailure : CheckResult → Bool
  | .success _ => false
  | .failure _ => true

/-- Model of safeParse of the external validation library on an object
schema: the input must be an object, every declared field must be present
and satisfy its validator, and under the strict policy no unknown key may be
present. On success the parsed value holds exactly the declared fields, in
shape order, so unknown keys are stripped. -/
def safeParse (s : ZodObjectDef) (data : Value) : CheckResult :=
  match data with
  | .obj fs =>
      let fieldIssues := s.shape.filterMap (fun p =>
        match lookupKey fs p.1 with
        | some v => if checkPrim p.2 v then none else some (ZodIssue.mk [p.1] "invalid_type")
        | none => some (ZodIssue.mk [p.1] "invalid_type"))
      let unknownKeys := fs.filter (fun p => (lookupKey s.shape p.1).isNone)
      let strictIssues :=
        if s.strict && !unknownKeys.isEmpty then
          [ZodIssue.mk (unknownKeys.map (fun p => p.1)) "unrecognized_keys"]
        else []
      match fieldIssues ++ strictIssues with
      | [] => .success (.obj (s.shape.filterMap (fun p => (lookupKey fs p.1).map (fun v => (p.1, v)))))
      | issues => .failure issues
  | _ => .failure [ZodIssue.mk [] "invalid_type"]

/-- The schema argument of the validator and merger is untyped in the
source. It is either a recognized zod object schema, or some other value
(undefined, null, an empty string, a plain object, ...) that carries no
safeParse method. -/
inductive SchemaArg where
  | zodObject (s : ZodObjectDef)
  | notSchema (v : Value)
  | absent
  deriving DecidableEq, Repr

/-- From zod-utils.ts: a value is treated as a zod object iff it carries a
safeParse method, which in this model is exactly the zodObject branch. -/
def isZodObject : SchemaArg → Bool
  | .zodObject _ => true
  | _ => false

/-- True exactly on object values, mirroring the typeof object test of the
source (for a null input the TS spread of null equals the parsed value, so
mapping null to the else branch is observationally identical). -/
def isObjectValue : Value → Bool
  | .obj _ => true
  | _ => false

/-- JS object spread of two values; on non-objects the spread result used by
the source degenerates to the second value. -/
def spreadMerge (data parsed : Value) : Value :=
  match data, parsed with
  | .obj ds, .obj ps => .obj (spreadPairs ds ps)
  | _, p => p

/-- From zod-utils.ts, checkZodSchema: when the schema is a recognized zod
object run it, merging validated output back over the original object when
passThroughExtraKeys is set; when the schema is not recognized, succeed with
the data unchanged. -/
def checkZodSchema (data : Value) (schema : SchemaArg)
    (passThroughExtraKeys : Bool := false) : CheckResult :=
  match schema with
  | .zodObject s =>
      match safeParse s data with
      | .success parsed =>
          .success (if passThroughExtraKeys && isObjectValue data then spreadMerge data parsed else parsed)
      | .failure e => .failure e
  | _ => .success data

/-- Merge of two zod object schemas, the behavior of the merge method of the
external validation library: the union of both shapes with the second
overriding on collision, and the unknown-keys policy taken from the second
schema. The in-src type UniversalMerge takes the unknownKeys parameter of
the merged ZodObject from B, and the in-src zodMerge tests confirm this at
runtime (strict base with non-strict route accepts extra keys, non-strict
base with strict route rejects them). -/
def zodMergeObjects (a b : ZodObjectDef) : ZodObjectDef :=
  ZodObjectDef.mk (spreadPairs a.shape b.shape) b.strict

/-- Modelled from the spec: the body of zodMerge is not under src (only its
tests and its callers are). Section 4.2 of the spec gives the absent cases:
both absent yields absent, one present yields that one. For two present zod
objects the merged schema is the merge of the external library, whose
unknown-keys policy comes from the second schema, as the in-src type
UniversalMerge and the in-src zodMerge tests pin down (the spec sentence
claiming that strictness of either side wins is exactly what claims C4 and
C5 assert and is contradicted by those in-src tests). For mixed inputs the
route-level value overrides, per the override direction of section 4.2. -/
def zodMerge (a b : SchemaArg) : SchemaArg :=
  match a, b with
  | .absent, _ => b
  | _, .absent => a
  | .zodObject sa, .zodObject sb => .zodObject (zodMergeObjects sa sb)
  | _, _ => b

/-- Split of a character list at a separator, the semantics of the JS string
split method: adjacent separators and boundary separators produce empty
segments. -/
def splitOnChar (c : Char) : List Char → List (List Char)
  | [] => [[]]
  | x :: xs =>
      if x = c then [] :: splitOnChar c xs
      else
        match splitOnChar c xs with
        | r :: rs => (x :: r) :: rs
        | [] => [[x]]

/-- JS split on the slash character, as used on path templates and request
urls throughout the dispatch code. -/
def splitSlash (s : String) : List String :=
  (splitOnChar '/' s.data).map (fun l => String.mk l)

/-- Does a segment begin with the parameter marker, the startsWith test of
the source. -/
def startsWithColon (s : String) : Bool :=
  match s.data with
  | [] => false
  | c :: _ => c = ':'

/-- The characters of a parameter segment after the marker, naming the
bound path parameter. -/
def paramName (s : String) : String :=
  String.mk (s.data.drop 1)

/-- One endpoint of the contract tree, with the attributes the embedded
code reads. Schemas are untyped in the source, so each schema slot holds a
SchemaArg; responses map status codes to response descriptors. -/
structure AppRoute where
  method : String
  path : String
  pathParams : SchemaArg := .absent
  headers : SchemaArg := .absent
  query : SchemaArg := .absent
  body : SchemaArg := .absent
  responses : List (Nat × SchemaArg) := []
  strictStatusCodes : Option Bool := none
  contentType : Option String := none
  summary : Option String := none
  description : Option String := none
  deprecated : Option Bool := none
  metadata : Option String := none
  deriving DecidableEq, Repr

mutual
/-- A node of a contract tree: a Route leaf or a Router of keyed children. -/
inductive AppRouterTree where
  | route (r : AppRoute) : AppRouterTree
  | node (children : RouterEntries) : AppRouterTree
/-- The ordered keyed entries of a Router object. -/
inductive RouterEntries where
  | nil : RouterEntries
  | cons (key : String) (child : AppRouterTree) (rest : RouterEntries) : RouterEntries
end

mutual
/-- All Route leaves of a tree, in definition order. -/
def routesOfTree : AppRouterTree → List AppRoute
  | .route r => [r]
  | .node cs => routesOfEntries cs
/-- All Route leaves under the entries of a Router, in definition order. -/
def routesOfEntries : RouterEntries → List AppRoute
  | .nil => []
  | .cons _ t rest => routesOfTree t ++ routesOfEntries rest
end

/-- From part_002, isRouteCorrect: the path template split into segments
(dropping the leading empty segment) must have the same length as the
request segments and the method must agree; then every segment that is not
a parameter marker segment must equal the corresponding request segment. -/
def isRouteCorrect (route : AppRoute) (query : List String) (method : String) : Bool :=
  let pathAsArray := (splitSlash route.path).drop 1
  if pathAsArray.length = query.length ∧ route.method = method then
    (pathAsArray.zip query).all (fun p => startsWithColon p.1 || p.1 = p.2)
  else
    false

mutual
/-- One entry value of the combined router: a route is taken when
isRouteCorrect accepts it, a nested router is searched recursively. -/
def matchRouteValue (t : AppRouterTree) (query : List String) (method : String) : Option AppRoute :=
  match t with
  | .route r => if isRouteCorrect r query method then some r else none
  | .node cs => getRouteImplementation cs query method
/-- From part_002, getRouteImplementation: first structural match in
definition order wins, searching depth first. -/
def getRouteImplementation (router : RouterEntries) (query : List String) (method : String) : Option AppRoute :=
  match router with
  | .nil => none
  | .cons _ t rest =>
      match matchRouteValue t query method with
      | some r => some r
      | none => getRouteImplementation rest query method
end

/-- Modelled from the spec: getPathParamsFromArray lives in the path-utils
module of the Next adapter, which is absent from src (only its import and
call sites are). Section 4.5 extractParams: walk template and actual
segments pairwise; every template segment beginning with the marker binds
the remaining characters of the marker segment, as parameter name, to the
corresponding actual segment; non-parameter segments bind nothing; values
stay raw strings. -/
def getPathParamsFromArray (urlChunks : List String) (route : AppRoute) : List (String × String) :=
  let segs := (splitSlash route.path).drop 1
  (segs.zip urlChunks).filterMap (fun p =>
    if startsWithColon p.1 then some (paramName p.1, p.2) else none)

/-- Router options of the in-src dsl file (part_001 lines 546 to 548): only
baseHeaders. -/
structure RouterOptions where
  baseHeaders : SchemaArg := .absent
  deriving DecidableEq, Repr

/-- The baseHeaders of an optional options argument, the optional chaining
access of the source (undefined when options is absent). -/
def optionsBaseHeaders (options : Option RouterOptions) : SchemaArg :=
  match options with
  | some o => o.baseHeaders
  | none => .absent

/-- The per-route transformation inside the in-src recursivelyApplyOptions:
spread the route and replace headers by the merge of baseHeaders with the
route headers. -/
def applyBaseHeaders (options : Option RouterOptions) (r : AppRoute) : AppRoute :=
  { r with headers := zodMerge (optionsBaseHeaders options) r.headers }

mutual
/-- One entry value under the in-src recursivelyApplyOptions: a route gets
the per-route transformation, a nested router is processed recursively with
the same options. -/
def recursivelyApplyOptionsTree (t : AppRouterTree) (options : Option RouterOptions) : AppRouterTree :=
  match t with
  | .route r => .route (applyBaseHeaders options r)
  | .node cs => .node (recursivelyApplyOptions cs options)
/-- From the in-src dsl file (part_001 lines 597 to 616),
recursivelyApplyOptions: rebuild the router entry by entry. -/
def recursivelyApplyOptions (router : RouterEntries) (options : Option RouterOptions) : RouterEntries :=
  match router with
  | .nil => .nil
  | .cons k t rest => .cons k (recursivelyApplyOptionsTree t options) (recursivelyApplyOptions rest options)
end

/-- Modelled from the spec: the router options of section 3 with all four
entries. The builder that consumes pathPrefix, commonResponses and
strictStatusCodes is absent from src (only its tests, in part_000, are);
the prependPath field models the pathPrefix option of the spec. -/
structure RouterOptionsFull where
  baseHeaders : SchemaArg := .absent
  prependPath : Option String := none
  commonResponses : List (Nat × SchemaArg) := []
  strictStatusCodes : Option Bool := none
  deriving DecidableEq, Repr

/-- Modelled from the spec, section 4.3 step 1: apply router options to one
Route. Headers become the merge of baseHeaders with the route headers; the
path gets the pathPrefix of the options prepended when present;
commonResponses are merged with the route responses with route entries
winning on a key conflict; strictStatusCodes keeps the route value when
explicitly set and takes the option value otherwise. -/
def applyOptions (o : RouterOptionsFull) (r : AppRoute) : AppRoute :=
  { r with
      headers := zodMerge o.baseHeaders r.headers,
      path :=
        match o.prependPath with
        | some p => p ++ r.path
        | none => r.path,
      responses := spreadPairs o.commonResponses r.responses,
      strictStatusCodes :=
        match r.strictStatusCodes with
        | some v => some v
        | none => o.strictStatusCodes }

mutual
/-- Modelled from the spec: recursive descent of the full builder over one
tree value. -/
def buildRouterTree (t : AppRouterTree) (o : RouterOptionsFull) : AppRouterTree :=
  match t with
  | .route r => .route (applyOptions o r)
  | .node cs => .node (buildRouterEntries cs o)
/-- Modelled from the spec, section 4.3: buildRouter applies the options to
every Route leaf, depth first, returning a new tree. A nested pre-built
sub-contract keeps its own already-resolved paths and the outer prefix is
prepended on top. -/
def buildRouterEntries (router : RouterEntries) (o : RouterOptionsFull) : RouterEntries :=
  match router with
  | .nil => .nil
  | .cons k t rest => .cons k (buildRouterTree t o) (buildRouterEntries rest o)
end

/-- A Next transport request as the embedded handler reads it: the url, the
method, the query mapping, the headers and the body. -/
structure NextApiRequest where
  url : String
  method : String
  query : List (String × Prim)
  headers : Value
  body : Value
  deriving DecidableEq, Repr

/-- The argument record produced by the per-router or per-route request
preprocessor and consumed by handlerFactory. -/
structure HandlerArgs where
  pathParams : List (String × String)
  query : List (String × Prim)
  route : Option AppRoute
  deriving DecidableEq, Repr

/-- Digits of a character list read as a natural number. -/
def digitsVal (cs : List Char) : Nat :=
  cs.foldl (fun acc c => 10 * acc + (c.toNat - 48)) 0

/-- Modelled from the spec: parseJsonQueryObject of the core package is
absent from src. Section 4.4 query pre-processing: every top-level query
string value is parsed as JSON before validation. The model covers the JSON
literals the repository tests exercise: quoted strings, natural number
literals and booleans; other strings stay as they are. -/
def jsonParseString (s : String) : Prim :=
  if s = "true" then .pBool true
  else if s = "false" then .pBool false
  else if s.data ≠ [] ∧ s.data.all (fun c => c.isDigit) then .pNum (Int.ofNat (digitsVal s.data))
  else
    match s.data with
    | '"' :: rest =>
        if rest ≠ [] ∧ rest.getLast? = some '"' then .pStr (String.mk (rest.dropLast))
        else .pStr s
    | _ => .pStr s

/-- Modelled from the spec: JSON parsing of every top-level query value. -/
def parseJsonQueryObject (query : List (String × Prim)) : List (String × Prim) :=
  query.map (fun p =>
    (p.1, match p.2 with
          | .pStr s => jsonParseString s
          | v => v))

/-- Result shape used by part_002: a value plus an optional error. -/
structure StdResult where
  value : Value
  error : Option (List ZodIssue)
  deriving DecidableEq, Repr

/-- Modelled from the spec: checkStandardSchema of the core package is
absent from src (part_002 imports it). Per section 4.1 it behaves as the
schema validator checkZodSchema and part_002 reads it through value and
error fields, with the error field empty exactly on success. -/
def checkStandardSchema (data : Value) (schema : SchemaArg)
    (passThroughExtraKeys : Bool := false) : StdResult :=
  match checkZodSchema data schema passThroughExtraKeys with
  | .success d => StdResult.mk d none
  | .failure e => StdResult.mk data (some e)

/-- The query selection line of handlerFactory (part_002 lines 303 to 305):
with jsonQuery enabled the query produced by the request preprocessor is
JSON-parsed; otherwise the raw transport query mapping is used. -/
def handlerQueryInput (args : HandlerArgs) (req : NextApiRequest) (jsonQuery : Bool) : List (String × Prim) :=
  if jsonQuery then parseJsonQueryObject args.query else req.query

/-- Path params as the object value handed to the validator. -/
def pathParamsToValue (ps : List (String × String)) : Value :=
  .obj (ps.map (fun p => (p.1, .pStr p.2)))

/-- Outcome of the embedded Next handler up to implementation invocation:
404 when no route matched, a 400 with one error payload, a raised
RequestValidationError aggregating the four categories, or invocation of
the implementation with the four validated value sets. -/
inductive NextOutcome where
  | notFound
  | badRequest (error : List ZodIssue)
  | thrownValidation (pathParams headers query body : Option (List ZodIssue))
  | invoke (params headers query body : Value)
  deriving DecidableEq, Repr

/-- From part_002, handlerFactory (lines 280 to 350): resolve the route,
run the four validations in order path params, headers, query, body (all
four computed before the failure branch), then either raise the aggregate
error in throw mode, answer 400 with the first failing category, or invoke
the implementation with the validated values. -/
def handlerFactory (args : HandlerArgs) (req : NextApiRequest)
    (jsonQuery throwRequestValidation : Bool) : NextOutcome :=
  match args.route with
  | none => NextOutcome.notFound
  | some route =>
      let pathParamsResult := checkStandardSchema (pathParamsToValue args.pathParams) route.pathParams true
      let headersResult := checkStandardSchema req.headers route.headers true
      let queryInput := handlerQueryInput args req jsonQuery
      let queryResult := checkStandardSchema (Value.obj queryInput) route.query
      let bodyResult := checkStandardSchema req.body route.body
      if pathParamsResult.error.isSome || headersResult.error.isSome
          || queryResult.error.isSome || bodyResult.error.isSome then
        if throwRequestValidation then
          NextOutcome.thrownValidation pathParamsResult.error headersResult.error
            queryResult.error bodyResult.error
        else
          match pathParamsResult.error with
          | some e => NextOutcome.badRequest e
          | none =>
            match headersResult.error with
            | some e => NextOutcome.badRequest e
            | none =>
              match queryResult.error with
              | some e => NextOutcome.badRequest e
              | none =>
                match bodyResult.error with
                | some e => NextOutcome.badRequest e
                | none =>
                    NextOutcome.invoke pathParamsResult.value headersResult.value
                      queryResult.value bodyResult.value
      else
        NextOutcome.invoke pathParamsResult.value headersResult.value
          queryResult.value bodyResult.value

/-- From part_002, the request preprocessor of createSingleRouteHandler
(lines 244 to 263): split the url into chunks, extract the path params,
filter the transport query down to the keys not bound in the extracted path
params, and keep the route only when isRouteCorrect accepts the request. -/
def singleRouteArgs (appRoute : AppRoute) (req : NextApiRequest) : HandlerArgs :=
  let urlChunks := (splitSlash req.url).drop 1
  let pathParams := getPathParamsFromArray urlChunks appRoute
  let query := req.query.filter (fun p => (lookupKey pathParams p.1).isNone)
  let isValidRoute := isRouteCorrect appRoute urlChunks req.method
  HandlerArgs.mk pathParams query (if isValidRoute then some appRoute else none)

/-- The path params validation error of a matched request. -/
def pathParamsError (args : HandlerArgs) (route : AppRoute) : Option (List ZodIssue) :=
  (checkStandardSchema (pathParamsToValue args.pathParams) route.pathParams true).error

/-- The headers validation error of a matched request. -/
def headersError (req : NextApiRequest) (route : AppRoute) : Option (List ZodIssue) :=
  (checkStandardSchema req.headers route.headers true).error

/-- The query validation error of a matched request. -/
def queryError (args : HandlerArgs) (req : NextApiRequest) (jsonQuery : Bool) (route : AppRoute) : Option (List ZodIssue) :=
  (checkStandardSchema (Value.obj (handlerQueryInput args req jsonQuery)) route.query).error

/-- The body validation error of a matched request. -/
def bodyError (req : NextApiRequest) (route : AppRoute) : Option (List ZodIssue) :=
  (checkStandardSchema req.body route.body).error

/-- First present category error in the order path params, headers, query,
body; the order of the four 400 branches of handlerFactory. -/
def firstError (p h q b : Option (List ZodIssue)) : Option (List ZodIssue) :=
  match p, h, q, b with
  | some e, _, _, _ => some e
  | none, some e, _, _ => some e
  | none, none, some e, _ => some e
  | none, none, none, e => e

/-- The GET /test route of the dispatch example (declared before the
parameterized sibling, as in the adapter test contract). -/
def c1routeTest : AppRoute :=
  { method := "GET", path := "/test" }

/-- The GET /test/:id route of the dispatch example. -/
def c1routeWithId : AppRoute :=
  { method := "GET", path := "/test/:id" }

/-- The two sibling routes of the dispatch example, /test first. -/
def c1router : RouterEntries :=
  .cons "get" (.route c1routeTest)
    (.cons "getWithParams" (.route c1routeWithId) .nil)

/-- Base headers schema of the merge examples: foo string, strict. -/
def fooStrict : ZodObjectDef := ZodObjectDef.mk [("foo", .tStr)] true

/-- Base headers schema of the merge examples: foo string, not strict. -/
def fooLoose : ZodObjectDef := ZodObjectDef.mk [("foo", .tStr)] false

/-- Route headers schema of the merge examples: bar string, strict. -/
def barStrict : ZodObjectDef := ZodObjectDef.mk [("bar", .tStr)] true

/-- Route headers schema of the merge examples: bar string, not strict. -/
def barLoose : ZodObjectDef := ZodObjectDef.mk [("bar", .tStr)] false

/-- The probe input of the merge examples, holding the extra key baz. -/
def fooBarBaz : Value :=
  .obj [("foo", .pStr "a"), ("bar", .pStr "b"), ("baz", .pStr "c")]

/-- The expected accepted output of the permissive merges: exactly foo and
bar, with baz dropped. -/
def fooBarOnly : Value :=
  .obj [("foo", .pStr "a"), ("bar", .pStr "b")]

/-- The schema of the pass-through example: a single numeric field a. -/
def schemaA : ZodObjectDef := ZodObjectDef.mk [("a", .tNum)] false

/-- The input of the pass-through example: a is declared, b is extra. -/
def inputAB : Value := .obj [("a", .pNum 1), ("b", .pNum 2)]

/-- The route of the validation-order counterexample: path params expect a
numeric id and headers require an auth string. -/
def c2route : AppRoute :=
  { method := "GET", path := "/posts/:id",
    pathParams := .zodObject (ZodObjectDef.mk [("id", .tNum)] false),
    headers := .zodObject (ZodObjectDef.mk [("auth", .tStr)] false) }

/-- Preprocessed arguments of the validation-order counterexample: the
extracted id is the raw string seven, failing the numeric path params
schema. -/
def c2args : HandlerArgs :=
  HandlerArgs.mk [("id", "7")] [] (some c2route)

/-- Request of the validation-order counterexample: no auth header, so the
headers category fails as well. -/
def c2req : NextApiRequest :=
  NextApiRequest.mk "/posts/7" "GET" [] (.obj []) (.prim .pNull)

/-- The issue produced by the failing path params category. -/
def c2issueId : ZodIssue := ZodIssue.mk ["id"] "invalid_type"

/-- The issue produced by the failing headers category. -/
def c2issueAuth : ZodIssue := ZodIssue.mk ["auth"] "invalid_type"

/-- The route of the nested prefix example, with its own path /:id. -/
def c3getPost : AppRoute :=
  { method := "GET", path := "/:id", responses := [(200, .absent)] }

/-- Inner router options carrying the /posts prefix. -/
def c3optsPosts : RouterOptionsFull := { prependPath := some "/posts" }

/-- Outer router options carrying the /v1 prefix. -/
def c3optsV1 : RouterOptionsFull := { prependPath := some "/v1" }

/-- The inner contract of the nested prefix example, already built with the
/posts prefix. -/
def c3inner : RouterEntries :=
  buildRouterEntries (.cons "getPost" (.route c3getPost) .nil) c3optsPosts

/-- The outer contract of the nested prefix example: the pre-built inner
contract embedded under the posts key and built with the /v1 prefix. -/
def c3outer : RouterEntries :=
  buildRouterEntries (.cons "posts" (.node c3inner) .nil) c3optsV1

/-- A route explicitly opting into strict status codes. -/
def c7routeStrictTrue : AppRoute :=
  { method := "GET", path := "/posts/:id", responses := [(200, .absent)],
    strictStatusCodes := some true }

/-- A route explicitly opting out of strict status codes. -/
def c7routeStrictFalse : AppRoute :=
  { method := "GET", path := "/posts/:id", responses := [(200, .absent)],
    strictStatusCodes := some false }

/-- A route leaving strict status codes unset. -/
def c7routeUnset : AppRoute :=
  { method := "GET", path := "/posts/:id", responses := [(200, .absent)] }

/-- The route of the query shadowing example: a path parameter named id. -/
def c10route : AppRoute :=
  { method := "GET", path := "/posts/:id" }

/-- The request of the query shadowing example: the transport injected the
bound path parameter id into the query mapping next to an ordinary query
key foo, and jsonQuery is left unset. -/
def c10req : NextApiRequest :=
  NextApiRequest.mk "/posts/7" "GET"
    [("id", .pStr "7"), ("foo", .pStr "bar")] (.obj []) (.prim .pNull)

theorem lookupKey_filterKey {κ α : Type} [DecidableEq κ] (b : List (κ × α)) (pred : κ → Bool) (k : κ) :
    lookupKey (b.filter (fun p => pred p.1)) k = if pred k then lookupKey b k else none := by
  induction b with
  | nil => simp [lookupKey]
  | cons hd tl ih =>
      obtain ⟨k1, v⟩ := hd
      by_cases hk : k1 = k
      · subst hk
        cases hp : pred k1 <;> simp [List.filter_cons, hp, lookupKey, ih]
      · cases hp : pred k1 <;> simp [List.filter_cons, hp, lookupKey, hk, ih]

theorem lookupKey_mapSnd {κ α β : Type} [DecidableEq κ] (a : List (κ × α)) (f : κ → α → β) (k : κ) :
    lookupKey (a.map (fun p => (p.1, f p.1 p.2))) k = (lookupKey a k).map (f k) := by
  induction a with
  | nil => simp [lookupKey]
  | cons hd tl ih =>
      obtain ⟨k1, v⟩ := hd
      by_cases hk : k1 = k
      · subst hk; simp [lookupKey]
      · simp [lookupKey, hk, ih]

theorem lookupKey_append {κ α : Type} [DecidableEq κ] (l1 l2 : List (κ × α)) (k : κ) :
    lookupKey (l1 ++ l2) k =
      match lookupKey l1 k with
      | some v => some v
      | none => lookupKey l2 k := by
  induction l1 with
  | nil => simp [lookupKey]
  | cons hd tl ih =>
      obtain ⟨k1, v⟩ := hd
      by_cases hk : k1 = k <;> simp [lookupKey, hk, ih]

theorem lookupKey_spreadPairs {κ α : Type} [DecidableEq κ] (a b : List (κ × α)) (k : κ) :
    lookupKey (spreadPairs a b) k = (lookupKey b k <|> lookupKey a k) := by
  unfold spreadPairs
  rw [lookupKey_append]
  rw [lookupKey_mapSnd a (fun k1 v => (lookupKey b k1).getD v) k]
  rw [lookupKey_filterKey b (fun k1 => (lookupKey a k1).isNone) k]
  cases ha : lookupKey a k <;> cases hb : lookupKey b k <;> simp [ha, hb]

theorem zip_all_iff_getD (f : String → String → Bool) :
    ∀ (ps qs : List String), ps.length = qs.length →
      (((ps.zip qs).all fun p => f p.1 p.2) = true ↔
        ∀ i, i < ps.length → f (ps.getD i "") (qs.getD i "") = true) := by
  intro ps
  induction ps with
  | nil => intro qs h; simp
  | cons p ptl ih =>
      intro qs h
      cases qs with
      | nil => simp at h
      | cons q qtl =>
          simp only [List.length_cons, Nat.succ.injEq] at h
          constructor
          · intro hall i hi
            simp only [List.zip_cons_cons, List.all_cons, Bool.and_eq_true] at hall
            cases i with
            | zero => simpa using hall.1
            | succ j =>
                have hj : j < ptl.length := Nat.lt_of_succ_lt_succ hi
                simpa using ((ih qtl h).mp hall.2) j hj
          · intro hidx
            simp only [List.zip_cons_cons, List.all_cons, Bool.and_eq_true]
            refine ⟨by simpa using hidx 0 (Nat.succ_pos _), ?_⟩
            refine (ih qtl h).mpr ?_
            intro j hj
            simpa using hidx (j + 1) (Nat.succ_lt_succ hj)

mutual
theorem matchRouteValue_sound (t : AppRouterTree) (q : List String) (m : String) (r : AppRoute)
    (h : matchRouteValue t q m = some r) : isRouteCorrect r q m = true := by
  match t with
  | .route r0 =>
      unfold matchRouteValue at h
      by_cases hc : isRouteCorrect r0 q m = true
      · rw [if_pos hc] at h
        cases h
        exact hc
      · rw [if_neg hc] at h
        cases h
  | .node cs =>
      unfold matchRouteValue at h
      exact getRouteImplementation_sound cs q m r h
theorem getRouteImplementation_sound (es : RouterEntries) (q : List String) (m : String) (r : AppRoute)
    (h : getRouteImplementation es q m = some r) : isRouteCorrect r q m = true := by
  match es with
  | .nil => exact absurd h (by simp [getRouteImplementation])
  | .cons k t rest =>
      unfold getRouteImplementation at h
      cases hm : matchRouteValue t q m with
      | some r0 =>
          rw [hm] at h
          cases h
          exact matchRouteValue_sound t q m r hm
      | none =>
          rw [hm] at h
          exact getRouteImplementation_sound rest q m r h
end

mutual
theorem routesOfTree_build (t : AppRouterTree) (o : RouterOptionsFull) :
    routesOfTree (buildRouterTree t o) = (routesOfTree t).map (applyOptions o) := by
  match t with
  | .route r => simp [buildRouterTree, routesOfTree]
  | .node cs => simp [buildRouterTree, routesOfTree, routesOfEntries_build cs o]
theorem routesOfEntries_build (cs : RouterEntries) (o : RouterOptionsFull) :
    routesOfEntries (buildRouterEntries cs o) = (routesOfEntries cs).map (applyOptions o) := by
  match cs with
  | .nil => simp [buildRouterEntries, routesOfEntries]
  | .cons k t rest =>
      simp [buildRouterEntries, routesOfEntries, routesOfTree_build t o,
        routesOfEntries_build rest o]
end

mutual
theorem routesOfTree_applyOptions (t : AppRouterTree) (o : Option RouterOptions) :
    routesOfTree (recursivelyApplyOptionsTree t o) = (routesOfTree t).map (applyBaseHeaders o) := by
  match t with
  | .route r => simp [recursivelyApplyOptionsTree, routesOfTree]
  | .node cs => simp [recursivelyApplyOptionsTree, routesOfTree, routesOfEntries_applyOptions cs o]
theorem routesOfEntries_applyOptions (cs : RouterEntries) (o : Option RouterOptions) :
    routesOfEntries (recursivelyApplyOptions cs o) = (routesOfEntries cs).map (applyBaseHeaders o) := by
  match cs with
  | .nil => simp [recursivelyApplyOptions, routesOfEntries]
  | .cons k t rest =>
      simp [recursivelyApplyOptions, routesOfEntries, routesOfTree_applyOptions t o,
        routesOfEntries_applyOptions rest o]
end

/-- C1: a request matches a route iff the methods agree, the path template
has the same number of segments as the request path, and every non-parameter
template segment equals the corresponding request segment verbatim while
parameter segments match anything; the dispatch search only returns matching
routes; and the concrete GET request to /test/3 against the sibling GET
routes /test and /test/:id matches only /test/:id and binds id to the
string 3. -/
theorem c1_route_matching :
    (∀ (route : AppRoute) (query : List String) (method : String),
        isRouteCorrect route query method = true ↔
          (route.method = method ∧
           ((splitSlash route.path).drop 1).length = query.length ∧
           ∀ i, i < ((splitSlash route.path).drop 1).length →
             startsWithColon (((splitSlash route.path).drop 1).getD i "") = false →
             ((splitSlash route.path).drop 1).getD i "" = query.getD i "")) ∧
    (∀ (es : RouterEntries) (q : List String) (m : String) (r : AppRoute),
        getRouteImplementation es q m = some r → isRouteCorrect r q m = true) ∧
    getRouteImplementation c1router ["test", "3"] "GET" = some c1routeWithId ∧
    isRouteCorrect c1routeTest ["test", "3"] "GET" = false ∧
    getPathParamsFromArray ["test", "3"] c1routeWithId = [("id", "3")] := by
  refine ⟨?_, getRouteImplementation_sound, by decide, by decide, by decide⟩
  intro route query method
  simp only [isRouteCorrect]
  by_cases hc : ((splitSlash route.path).drop 1).length = query.length ∧ route.method = method
  · rw [if_pos hc]
    constructor
    · intro hall
      refine ⟨hc.2, hc.1, ?_⟩
      intro i hi hcolon
      have hstep :=
        (zip_all_iff_getD (fun a b => startsWithColon a || decide (a = b))
          ((splitSlash route.path).drop 1) query hc.1).mp hall i hi
      simp only [hcolon, Bool.false_or, decide_eq_true_eq] at hstep
      exact hstep
    · rintro ⟨hm, hlen, hidx⟩
      refine (zip_all_iff_getD (fun a b => startsWithColon a || decide (a = b))
        ((splitSlash route.path).drop 1) query hc.1).mpr ?_
      intro i hi
      by_cases hcol : startsWithColon (((splitSlash route.path).drop 1).getD i "") = true
      · simp only [Bool.or_eq_true, decide_eq_true_eq]
        exact Or.inl hcol
      · have heq := hidx i hi (by simpa using hcol)
        simp only [Bool.or_eq_true, decide_eq_true_eq]
        exact Or.inr heq
  · rw [if_neg hc]
    simp only [Bool.false_eq_true, false_iff]
    rintro ⟨hm, hlen, _⟩
    exact hc ⟨hlen, hm⟩

/-- Witness for C1: the characterization applied at the concrete route
/test/:id and request segments of /test/3. -/
theorem c1_route_matching_witness :
    isRouteCorrect c1routeWithId ["test", "3"] "GET" = true :=
  (c1_route_matching.1 c1routeWithId ["test", "3"] "GET").mpr (by decide)

/-- C2 (amended): for every matched request the four validations are
evaluated in the order path params, headers, query, body, all four computed
before the failure branch; when throwRequestValidation is set a single
raised error aggregates all four category results; without it the 400
response carries only the first failing category in that order. -/
theorem c2_validation_order_first_error :
    ∀ (args : HandlerArgs) (req : NextApiRequest) (jq : Bool) (route : AppRoute),
      args.route = some route →
      (((pathParamsError args route).isSome || (headersError req route).isSome
          || (queryError args req jq route).isSome || (bodyError req route).isSome) = true →
        handlerFactory args req jq true =
          NextOutcome.thrownValidation (pathParamsError args route) (headersError req route)
            (queryError args req jq route) (bodyError req route)) ∧
      (∀ e, firstError (pathParamsError args route) (headersError req route)
            (queryError args req jq route) (bodyError req route) = some e →
        handlerFactory args req jq false = NextOutcome.badRequest e) := by
  intro args req jq route hroute
  simp only [pathParamsError, headersError, queryError, bodyError]
  constructor
  · intro hsome
    simp [handlerFactory, hroute, hsome]
  · intro e hfe
    cases hp : (checkStandardSchema (pathParamsToValue args.pathParams) route.pathParams true).error <;>
    cases hh : (checkStandardSchema req.headers route.headers true).error <;>
    cases hq : (checkStandardSchema (Value.obj (handlerQueryInput args req jq)) route.query).error <;>
    cases hb : (checkStandardSchema req.body route.body).error <;>
      simp_all [handlerFactory, firstError]

/-- Witness for C2 (amended): on the concrete request failing both the path
params and the headers categories, the non-throw response is the 400 built
from the path params error. -/
theorem c2_validation_order_witness :
    handlerFactory c2args c2req false false = NextOutcome.badRequest [c2issueId] :=
  (c2_validation_order_first_error c2args c2req false c2route rfl).2 [c2issueId] (by decide)

/-- C2 counterexample: on a request whose path params and headers categories
both fail, the non-throw 400 response carries only the path params issue;
the headers category accumulated its own issue, and that issue is not part
of the 400 payload, so the response does not carry all accumulated
validation errors. -/
theorem c2_counterexample :
    handlerFactory c2args c2req false false = NextOutcome.badRequest [c2issueId] ∧
    headersError c2req c2route = some [c2issueAuth] ∧
    c2issueAuth ∉ [c2issueId] := by
  refine ⟨by decide, by decide, by decide⟩

/-- C3 (spec-modelled builder): the pathPrefix option is prepended to the
path of every descendant route, one application per nesting level composing
outer-to-inner; concretely, a route with its own path /:id inside a router
built with prefix /posts, itself nested in a router built with prefix /v1,
resolves to exactly /v1/posts/:id. -/
theorem c3_path_composition :
    (∀ (o : RouterOptionsFull) (r : AppRoute) (p : String),
        o.prependPath = some p → (applyOptions o r).path = p ++ r.path) ∧
    (∀ (o1 o2 : RouterOptionsFull) (r : AppRoute) (p1 p2 : String),
        o1.prependPath = some p1 → o2.prependPath = some p2 →
        (applyOptions o1 (applyOptions o2 r)).path = p1 ++ (p2 ++ r.path)) ∧
    routesOfEntries c3inner = [{ c3getPost with path := "/posts/:id" }] ∧
    routesOfEntries c3outer = [{ c3getPost with path := "/v1/posts/:id" }] := by
  refine ⟨?_, ?_, by decide, by decide⟩
  · intro o r p hp
    simp [applyOptions, hp]
  · intro o1 o2 r p1 p2 hp1 hp2
    simp [applyOptions, hp1, hp2]

/-- Witness for C3: one application of the inner prefix at the concrete
route. -/
theorem c3_path_composition_witness :
    (applyOptions c3optsPosts c3getPost).path = "/posts" ++ "/:id" :=
  c3_path_composition.1 c3optsPosts c3getPost "/posts" rfl

/-- C7 (spec-modelled builder): after building, every route that explicitly
set strictStatusCodes keeps its own value, even against an opposite router
option, and every route without one receives the option value; shown in
general over the tree and at the three concrete option-route combinations
of the in-src tests. -/
theorem c7_strict_status_codes :
    (∀ (es : RouterEntries) (o : RouterOptionsFull) (rb : AppRoute),
        rb ∈ routesOfEntries (buildRouterEntries es o) →
        ∃ r, r ∈ routesOfEntries es ∧ rb = applyOptions o r ∧
          rb.strictStatusCodes =
            (match r.strictStatusCodes with
             | some v => some v
             | none => o.strictStatusCodes)) ∧
    (∀ (o : RouterOptionsFull) (r : AppRoute) (v : Bool),
        r.strictStatusCodes = some v → (applyOptions o r).strictStatusCodes = some v) ∧
    (∀ (o : RouterOptionsFull) (r : AppRoute),
        r.strictStatusCodes = none → (applyOptions o r).strictStatusCodes = o.strictStatusCodes) ∧
    (applyOptions { strictStatusCodes := some false } c7routeStrictTrue).strictStatusCodes = some true ∧
    (applyOptions { strictStatusCodes := some true } c7routeStrictFalse).strictStatusCodes = some false ∧
    (applyOptions { strictStatusCodes := some true } c7routeUnset).strictStatusCodes = some true := by
  refine ⟨?_, ?_, ?_, by decide, by decide, by decide⟩
  · intro es o rb hmem
    rw [routesOfEntries_build] at hmem
    obtain ⟨r, hr, rfl⟩ := List.mem_map.mp hmem
    exact ⟨r, hr, rfl, by simp [applyOptions]⟩
  · intro o r v hv
    simp [applyOptions, hv]
  · intro o r hv
    simp [applyOptions, hv]

/-- Witness for C7: a route explicitly set to strict true keeps that value
under a router option of the opposite value. -/
theorem c7_strict_status_codes_witness :
    (applyOptions { strictStatusCodes := some false } c7routeStrictTrue).strictStatusCodes = some true :=
  c7_strict_status_codes.2.1 { strictStatusCodes := some false } c7routeStrictTrue true rfl

/-- C9: building a contract with the in-src recursivelyApplyOptions maps
every route leaf through the per-route transformation, and that
transformation leaves every field except headers identical to the input
route, replacing only headers by the merge of the baseHeaders option with
the route headers. -/
theorem c9_frame_only_headers :
    (∀ (es : RouterEntries) (o : Option RouterOptions),
        routesOfEntries (recursivelyApplyOptions es o) =
          (routesOfEntries es).map (applyBaseHeaders o)) ∧
    (∀ (o : Option RouterOptions) (r : AppRoute),
        (applyBaseHeaders o r).method = r.method ∧
        (applyBaseHeaders o r).path = r.path ∧
        (applyBaseHeaders o r).pathParams = r.pathParams ∧
        (applyBaseHeaders o r).query = r.query ∧
        (applyBaseHeaders o r).body = r.body ∧
        (applyBaseHeaders o r).responses = r.responses ∧
        (applyBaseHeaders o r).strictStatusCodes = r.strictStatusCodes ∧
        (applyBaseHeaders o r).contentType = r.contentType ∧
        (applyBaseHeaders o r).summary = r.summary ∧
        (applyBaseHeaders o r).description = r.description ∧
        (applyBaseHeaders o r).deprecated = r.deprecated ∧
        (applyBaseHeaders o r).metadata = r.metadata ∧
        (applyBaseHeaders o r).headers = zodMerge (optionsBaseHeaders o) r.headers) :=
  ⟨routesOfEntries_applyOptions,
   fun _ _ => ⟨rfl, rfl, rfl, rfl, rfl, rfl, rfl, rfl, rfl, rfl, rfl, rfl, rfl⟩⟩

/-- C4 counterexample: merging the strict base schema foo with the
non-strict route schema bar and validating the input carrying the extra key
baz does not reject; it succeeds and returns exactly foo and bar, exactly as
the in-src zodMerge test of the strict with non-strict case expects. -/
theorem c4_counterexample :
    isFailure (checkZodSchema fooBarBaz (zodMerge (.zodObject fooStrict) (.zodObject barLoose))) = false ∧
    checkZodSchema fooBarBaz (zodMerge (.zodObject fooStrict) (.zodObject barLoose)) = .success fooBarOnly := by
  exact ⟨by decide, by decide⟩

/-- C4 (amended): the merged schema rejects unknown keys exactly when the
route-level (second) schema rejects them. Strict base with non-strict route
accepts the probe input and returns exactly foo and bar; two non-strict
schemas do the same; a strict route schema rejects, with either base. -/
theorem c4_merge_strictness_from_route :
    checkZodSchema fooBarBaz (zodMerge (.zodObject fooStrict) (.zodObject barLoose)) = .success fooBarOnly ∧
    checkZodSchema fooBarBaz (zodMerge (.zodObject fooLoose) (.zodObject barLoose)) = .success fooBarOnly ∧
    isFailure (checkZodSchema fooBarBaz (zodMerge (.zodObject fooLoose) (.zodObject barStrict))) = true ∧
    isFailure (checkZodSchema fooBarBaz (zodMerge (.zodObject fooStrict) (.zodObject barStrict))) = true ∧
    (∀ (a b : ZodObjectDef), (zodMergeObjects a b).strict = b.strict) := by
  exact ⟨by decide, by decide, by decide, by decide, fun _ _ => rfl⟩

/-- C5 counterexample: the non-strict base schema foo accepts the probe
input with its extra keys, yet the schema merged from it and the strict
route schema bar rejects that input, so permissiveness of one side does not
make the merged schema permissive. -/
theorem c5_counterexample :
    checkZodSchema fooBarBaz (.zodObject fooLoose) = .success (.obj [("foo", .pStr "a")]) ∧
    isFailure (checkZodSchema fooBarBaz (zodMerge (.zodObject fooLoose) (.zodObject barStrict))) = true := by
  exact ⟨by decide, by decide⟩

/-- C5 (amended): for two present object schemas the merged schema takes its
unknown-keys policy from the route-level (second) schema alone, and on field
name collisions the field validator of the second schema is in effect; the
concrete reject and accept cases of the in-src tests follow. -/
theorem c5_merge_unknown_keys_from_route :
    (∀ (a b : ZodObjectDef), (zodMergeObjects a b).strict = b.strict) ∧
    (∀ (a b : ZodObjectDef) (k : String),
        lookupKey (zodMergeObjects a b).shape k =
          (lookupKey b.shape k <|> lookupKey a.shape k)) ∧
    isFailure (checkZodSchema fooBarBaz (zodMerge (.zodObject fooLoose) (.zodObject barStrict))) = true ∧
    checkZodSchema fooBarBaz (zodMerge (.zodObject fooStrict) (.zodObject barLoose)) = .success fooBarOnly := by
  refine ⟨fun _ _ => rfl, ?_, by decide, by decide⟩
  intro a b k
  simp only [zodMergeObjects]
  exact lookupKey_spreadPairs a.shape b.shape k

/-- C6: validating the object with fields a and b against the schema
declaring only a, with passThroughExtraKeys set, succeeds and returns the
original object with b preserved; with passThroughExtraKeys false or left
at its default, it succeeds and returns exactly the declared field a. -/
theorem c6_passthrough_extra_keys :
    checkZodSchema inputAB (.zodObject schemaA) true = .success inputAB ∧
    checkZodSchema inputAB (.zodObject schemaA) false = .success (.obj [("a", .pNum 1)]) ∧
    checkZodSchema inputAB (.zodObject schemaA) = .success (.obj [("a", .pNum 1)]) := by
  exact ⟨by decide, by decide, by decide⟩

/-- C8: whenever the schema argument is not a recognized validation schema
object, the validator succeeds with the data unchanged, for any setting of
passThroughExtraKeys. -/
theorem c8_no_schema_passthrough :
    ∀ (data : Value) (schema : SchemaArg) (pt : Bool),
      isZodObject schema = false → checkZodSchema data schema pt = .success data := by
  intro data schema pt h
  cases schema with
  | zodObject s => exact absurd h (by simp [isZodObject])
  | notSchema v => rfl
  | absent => rfl

/-- Witness for C8: the null non-schema value on a concrete object input. -/
theorem c8_no_schema_witness :
    checkZodSchema (.obj [("a", .pNum 1)]) (.notSchema (.prim .pNull)) true =
      .success (.obj [("a", .pNum 1)]) :=
  c8_no_schema_passthrough (.obj [("a", .pNum 1)]) (.notSchema (.prim .pNull)) true (by decide)

/-- C10: the single-route preprocessor computes the transport query with the
bound path parameter key removed, but handlerFactory hands the raw transport
query mapping to query validation whenever jsonQuery is unset, discarding
the filtered mapping; at the failing input the implementation is invoked
with a query still containing the path parameter key. -/
theorem c10_filtered_query_discarded :
    (singleRouteArgs c10route c10req).pathParams = [("id", "7")] ∧
    (singleRouteArgs c10route c10req).query = [("foo", .pStr "bar")] ∧
    handlerQueryInput (singleRouteArgs c10route c10req) c10req false =
      [("id", .pStr "7"), ("foo", .pStr "bar")] ∧
    handlerQueryInput (singleRouteArgs c10route c10req) c10req false ≠
      (singleRouteArgs c10route c10req).query ∧
    handlerFactory (singleRouteArgs c10route c10req) c10req false false =
      NextOutcome.invoke (.obj [("id", .pStr "7")]) (.obj [])
        (.obj [("id", .pStr "7"), ("foo", .pStr "bar")]) (.prim .pNull) := by
  exact ⟨by decide, by decide, by decide, by decide, by decide⟩

/-- Mirror of the in-src zodMerge test with two strict schemas: the probe
input with the extra key baz is rejected. -/
theorem test_zodMerge_strict_strict :
    isFailure (checkZodSchema fooBarBaz (zodMerge (.zodObject fooStrict) (.zodObject barStrict))) = true := by
  decide

/-- Mirror of the in-src zodMerge test with a strict base and non-strict
route schema: the probe input is accepted and baz is dropped. -/
theorem test_zodMerge_strict_loose :
    checkZodSchema fooBarBaz (zodMerge (.zodObject fooStrict) (.zodObject barLoose)) = .success fooBarOnly := by
  decide

/-- Mirror of the in-src zodMerge test with a non-strict base and strict
route schema: the probe input is rejected over baz. -/
theorem test_zodMerge_loose_strict :
    checkZodSchema fooBarBaz (zodMerge (.zodObject fooLoose) (.zodObject barStrict)) =
      .failure [ZodIssue.mk ["baz"] "unrecognized_keys"] := by
  decide

/-- Mirror of the in-src zodMerge test with two non-strict schemas: the
probe input is accepted and baz is dropped. -/
theorem test_zodMerge_loose_loose :
    checkZodSchema fooBarBaz (zodMerge (.zodObject fooLoose) (.zodObject barLoose)) = .success fooBarOnly := by
  decide

/-- Mirror of the in-src checkZodSchema failure test: a string where a
number is declared yields exactly one issue. -/
theorem test_checkZodSchema_invalid :
    checkZodSchema (.obj [("a", .pStr "")]) (.zodObject schemaA) =
      .failure [ZodIssue.mk ["a"] "invalid_type"] := by
  decide

/-- Mirror of the in-src dispatch test differentiating /test from /test/3:
the parameterized sibling is returned with the binding id to 3. -/
theorem test_dispatch_test_id :
    getRouteImplementation c1router ["test", "3"] "GET" = some c1routeWithId ∧
    getPathParamsFromArray ["test", "3"] c1routeWithId = [("id", "3")] := by
  exact ⟨by decide, by decide⟩

/-- Mirror of the in-src nested prefix contract test: the inner contract
resolves to /posts/:id and the outer one to /v1/posts/:id. -/
theorem test_nested_path_resolution :
    routesOfEntries c3inner = [{ c3getPost with path := "/posts/:id" }] ∧
    routesOfEntries c3outer = [{ c3getPost with path := "/v1/posts/:id" }] := by
  exact ⟨by decide, by decide⟩
